import Mathlib

/-!
# Verification of the heightfield-to-mesh generator (`svg2stl.py`, `heightmap_to_stl`)

Shallow embedding of the function `heightmap_to_stl` from
`src/tools/svg-to-3dprint/svg2stl.py`.  The Python function takes a
`heightmap` (2D array of floats, indexed `[y, x]`), an `extrusion_mask`
(2D boolean array of the same shape) and `scale_xy`, and produces an
indexed triangle mesh (a vertex list and a face list of vertex-index
triples).  Heights are modelled by rationals; the integer bookkeeping
(vertex indices, face counts) is exact.
-/

namespace Svg2Stl

/-- A vertex `[x * scale_xy, y * scale_xy, z]` as appended to `vertices`. -/
abbrev Vertex := ℚ × ℚ × ℚ

/-- A face `[v1, v2, v3]` of vertex indices as appended to `faces`. -/
abbrev Face := ℕ × ℕ × ℕ

/-- The input data of `heightmap_to_stl`: `h, w = heightmap.shape`,
`heightmap[y, x]` and `extrusion_mask[y, x]`.  Only in-bounds entries
(`y < h`, `x < w`) are ever read by the embedded code. -/
structure Grid where
  h : ℕ
  w : ℕ
  heightmap : ℕ → ℕ → ℚ
  mask : ℕ → ℕ → Bool

/-- Key of the Python dict `vertex_map`: `(x, y, 'top')` is `(x, y, true)`,
`(x, y, 'bottom')` is `(x, y, false)`. -/
abbrev VKey := ℕ × ℕ × Bool

/-- The `vertex_map` dict, as the association list of its insertions in order. -/
abbrev VMap := List (VKey × ℕ)

/-- Dict lookup `vertex_map[k]` (first matching key). -/
def vmFind : VMap → VKey → Option ℕ
  | [], _ => none
  | (k', v) :: rest, k => if k' = k then some v else vmFind rest k

/-- Total version of `vertex_map[k]` used when building faces; in the code every
lookup is guarded so that the key is present. -/
def vmGet (vm : VMap) (k : VKey) : ℕ := (vmFind vm k).getD 0

/-- The cells `(y, x)` in the order of the nested loops
`for y in range(h): for x in range(w)`. -/
def cellList (g : Grid) : List (ℕ × ℕ) :=
  (List.range g.h).flatMap fun y => (List.range g.w).map fun x => (y, x)

/-- One step of the vertex-generation loop body: if `extrusion_mask[y, x]`,
append the top vertex `[x*scale, y*scale, heightmap[y, x]]` and the bottom
vertex `[x*scale, y*scale, 0.0]`, record both indices in `vertex_map`, and
advance `vertex_idx` by 2. -/
def vertexStep (g : Grid) (scale : ℚ) (acc : List Vertex × VMap × ℕ) (c : ℕ × ℕ) :
    List Vertex × VMap × ℕ :=
  let (y, x) := c
  let (vs, vm, idx) := acc
  if g.mask y x then
    (vs ++ [((x : ℚ) * scale, (y : ℚ) * scale, g.heightmap y x),
            ((x : ℚ) * scale, (y : ℚ) * scale, 0)],
     vm ++ [((x, y, true), idx), ((x, y, false), idx + 1)],
     idx + 2)
  else acc

/-- The vertex-generation loop: `vertices`, `vertex_map` and the final
`vertex_idx` after the double loop over all cells. -/
def buildVertices (g : Grid) (scale : ℚ) : List Vertex × VMap × ℕ :=
  (cellList g).foldl (vertexStep g scale) ([], [], 0)

/-- The `vertices` buffer. -/
def verticesOf (g : Grid) (scale : ℚ) : List Vertex := (buildVertices g scale).1

/-- The `vertex_map` dict. -/
def vmOf (g : Grid) (scale : ℚ) : VMap := (buildVertices g scale).2.1

/-- The four `corners` of the 2×2 window at `(x, y)`:
`[(x, y), (x+1, y), (x, y+1), (x+1, y+1)]` (coordinates `(cx, cy)`). -/
def windowCorners (x y : ℕ) : List (ℕ × ℕ) :=
  [(x, y), (x + 1, y), (x, y + 1), (x + 1, y + 1)]

/-- The list `extruded_corners`: the corners with `extrusion_mask[cy, cx]`. -/
def extrudedCorners (g : Grid) (x y : ℕ) : List (ℕ × ℕ) :=
  (windowCorners x y).filter fun c => g.mask c.2 c.1

/-- Faces emitted for the window `(x, y)` by the top-surface loop:
`[v1, v2, v3]` and `[v2, v4, v3]` when all four corners are extruded. -/
def windowTopFaces (g : Grid) (vm : VMap) (x y : ℕ) : List Face :=
  if (extrudedCorners g x y).length = 4 then
    let v1 := vmGet vm (x, y, true)
    let v2 := vmGet vm (x + 1, y, true)
    let v3 := vmGet vm (x, y + 1, true)
    let v4 := vmGet vm (x + 1, y + 1, true)
    [(v1, v2, v3), (v2, v4, v3)]
  else []

/-- Faces emitted for the window `(x, y)` by the bottom-surface loop:
`[v1, v3, v2]` and `[v2, v3, v4]` (reversed winding). -/
def windowBottomFaces (g : Grid) (vm : VMap) (x y : ℕ) : List Face :=
  if (extrudedCorners g x y).length = 4 then
    let v1 := vmGet vm (x, y, false)
    let v2 := vmGet vm (x + 1, y, false)
    let v3 := vmGet vm (x, y + 1, false)
    let v4 := vmGet vm (x + 1, y + 1, false)
    [(v1, v3, v2), (v2, v3, v4)]
  else []

/-- The top-surface loop `for y in range(h-1): for x in range(w-1)`. -/
def topFaces (g : Grid) (vm : VMap) : List Face :=
  (List.range (g.h - 1)).flatMap fun y =>
    (List.range (g.w - 1)).flatMap fun x => windowTopFaces g vm x y

/-- The bottom-surface loop. -/
def bottomFaces (g : Grid) (vm : VMap) : List Face :=
  (List.range (g.h - 1)).flatMap fun y =>
    (List.range (g.w - 1)).flatMap fun x => windowBottomFaces g vm x y

/-- The list `directions = [(0, 1), (1, 0), (0, -1), (-1, 0)]` of `(dx, dy)` offsets. -/
def directions : List (ℤ × ℤ) := [(0, 1), (1, 0), (0, -1), (-1, 0)]

/-- The test `nx < 0 or nx >= w or ny < 0 or ny >= h or not extrusion_mask[ny, nx]`:
the neighbor of `(x, y)` in direction `d` is outside the grid or not extruded. -/
def neighborOpen (g : Grid) (x y : ℕ) (d : ℤ × ℤ) : Bool :=
  let nx : ℤ := (x : ℤ) + d.1
  let ny : ℤ := (y : ℤ) + d.2
  nx < 0 || (g.w : ℤ) ≤ nx || ny < 0 || (g.h : ℤ) ≤ ny || !g.mask ny.toNat nx.toNat

/-- Wall faces emitted for the active cell `(x, y)` and one direction `(dx, dy)`,
exactly following the four branches of the side-face loop body. -/
def wallFacesDir (g : Grid) (vm : VMap) (x y : ℕ) (d : ℤ × ℤ) : List Face :=
  if neighborOpen g x y d then
    if d.1 = 1 ∧ d.2 = 0 then
      -- right edge
      if y < g.h - 1 ∧ g.mask (y + 1) x then
        let v1t := vmGet vm (x, y, true)
        let v2t := vmGet vm (x, y + 1, true)
        let v1b := vmGet vm (x, y, false)
        let v2b := vmGet vm (x, y + 1, false)
        [(v1t, v2t, v1b), (v2t, v2b, v1b)]
      else []
    else if d.1 = 0 ∧ d.2 = 1 then
      -- bottom edge
      if x < g.w - 1 ∧ g.mask y (x + 1) then
        let v1t := vmGet vm (x, y, true)
        let v2t := vmGet vm (x + 1, y, true)
        let v1b := vmGet vm (x, y, false)
        let v2b := vmGet vm (x + 1, y, false)
        [(v1t, v1b, v2t), (v2t, v1b, v2b)]
      else []
    else if d.1 = -1 ∧ d.2 = 0 then
      -- left edge
      if y < g.h - 1 ∧ g.mask (y + 1) x then
        let v1t := vmGet vm (x, y, true)
        let v2t := vmGet vm (x, y + 1, true)
        let v1b := vmGet vm (x, y, false)
        let v2b := vmGet vm (x, y + 1, false)
        [(v1t, v1b, v2t), (v2t, v1b, v2b)]
      else []
    else if d.1 = 0 ∧ d.2 = -1 then
      -- top edge
      if x < g.w - 1 ∧ g.mask y (x + 1) then
        let v1t := vmGet vm (x, y, true)
        let v2t := vmGet vm (x + 1, y, true)
        let v1b := vmGet vm (x, y, false)
        let v2b := vmGet vm (x + 1, y, false)
        [(v1t, v2t, v1b), (v2t, v2b, v1b)]
      else []
    else []
  else []

/-- The side-face loop `for y in range(h): for x in range(w)` with the
`if not extrusion_mask[y, x]: continue` guard and the inner direction loop. -/
def wallFaces (g : Grid) (vm : VMap) : List Face :=
  (List.range g.h).flatMap fun y =>
    (List.range g.w).flatMap fun x =>
      if g.mask y x then directions.flatMap (wallFacesDir g vm x y) else []

/-- All faces, in emission order: top surface, bottom surface, walls. -/
def allFaces (g : Grid) (vm : VMap) : List Face :=
  topFaces g vm ++ bottomFaces g vm ++ wallFaces g vm

/-- The two early-exit conditions of `heightmap_to_stl`, named as in the
specification: `len(vertices) == 0` ("No vertices to extrude") and
`len(faces) == 0` ("No faces generated"). -/
inductive MeshError where
  | emptyGeometry
  | degenerateMesh
  deriving DecidableEq

/-- The assembled output mesh. -/
structure Mesh where
  vertices : List Vertex
  faces : List Face
  deriving DecidableEq

/-- The function `heightmap_to_stl`: build the vertex buffer; exit with the empty-geometry
error if it is empty; otherwise build all faces; exit with the degenerate-mesh
error if no face was generated; otherwise return the assembled mesh. -/
def heightmapToStl (g : Grid) (scale : ℚ) : Except MeshError Mesh :=
  let vs := verticesOf g scale
  if vs.length = 0 then .error .emptyGeometry
  else
    let fs := allFaces g (vmOf g scale)
    if fs.length = 0 then .error .degenerateMesh
    else .ok ⟨vs, fs⟩

/-- The active cells, in loop order. -/
def activeList (g : Grid) : List (ℕ × ℕ) :=
  (cellList g).filter fun c => g.mask c.1 c.2

/-- Number of active cells. -/
def activeCount (g : Grid) : ℕ := (activeList g).length

/-- The top vertex appended for the active cell `c = (y, x)`:
`[x * scale_xy, y * scale_xy, heightmap[y, x]]`. -/
def mkTop (g : Grid) (scale : ℚ) (c : ℕ × ℕ) : Vertex :=
  ((c.2 : ℚ) * scale, (c.1 : ℚ) * scale, g.heightmap c.1 c.2)

/-- The bottom vertex appended for the active cell `c = (y, x)`:
`[x * scale_xy, y * scale_xy, 0.0]`. -/
def mkBot (scale : ℚ) (c : ℕ × ℕ) : Vertex :=
  ((c.2 : ℚ) * scale, (c.1 : ℚ) * scale, 0)

/-- Closed form of the vertex buffer produced by folding `vertexStep` over `l`. -/
def vtxList (g : Grid) (scale : ℚ) : List (ℕ × ℕ) → List Vertex
  | [] => []
  | c :: l =>
      if g.mask c.1 c.2 then mkTop g scale c :: mkBot scale c :: vtxList g scale l
      else vtxList g scale l

/-- Closed form of the `vertex_map` produced by folding `vertexStep` over `l`,
starting at vertex index `n`. -/
def vmList (g : Grid) : List (ℕ × ℕ) → ℕ → VMap
  | [], _ => []
  | c :: l, n =>
      if g.mask c.1 c.2 then
        ((c.2, c.1, true), n) :: ((c.2, c.1, false), n + 1) :: vmList g l (n + 2)
      else vmList g l n

theorem foldl_vertexStep (g : Grid) (scale : ℚ) :
    ∀ (l : List (ℕ × ℕ)) (vs : List Vertex) (vm : VMap) (n : ℕ),
      l.foldl (vertexStep g scale) (vs, vm, n)
        = (vs ++ vtxList g scale l, vm ++ vmList g l n,
           n + 2 * l.countP fun c => g.mask c.1 c.2) := by
  intro l
  induction l with
  | nil => intro vs vm n; simp [vtxList, vmList]
  | cons c l ih =>
    intro vs vm n
    obtain ⟨y, x⟩ := c
    by_cases h : g.mask y x
    · simp only [List.foldl_cons, vertexStep, h, if_true, ih, vtxList, vmList,
        List.countP_cons]
      simp [h, Prod.ext_iff, mkTop, mkBot]
      omega
    · simp only [List.foldl_cons, vertexStep, h, if_false, ih, vtxList, vmList,
        List.countP_cons]
      simp [h]

theorem buildVertices_eq (g : Grid) (scale : ℚ) :
    buildVertices g scale
      = (vtxList g scale (cellList g), vmList g (cellList g) 0, 2 * activeCount g) := by
  unfold buildVertices activeCount activeList
  rw [foldl_vertexStep]
  simp [List.countP_eq_length_filter]

theorem vtxList_eq_flatMap (g : Grid) (scale : ℚ) (l : List (ℕ × ℕ)) :
    vtxList g scale l
      = (l.filter fun c => g.mask c.1 c.2).flatMap fun c => [mkTop g scale c, mkBot scale c] := by
  induction l with
  | nil => simp [vtxList]
  | cons c l ih =>
    by_cases h : g.mask c.1 c.2 <;> simp [vtxList, List.filter_cons, h, ih]

theorem vtxList_length (g : Grid) (scale : ℚ) (l : List (ℕ × ℕ)) :
    (vtxList g scale l).length = 2 * (l.filter fun c => g.mask c.1 c.2).length := by
  induction l with
  | nil => simp [vtxList]
  | cons c l ih =>
    by_cases h : g.mask c.1 c.2
    · simp [vtxList, List.filter_cons, h, ih]; ring
    · simp [vtxList, List.filter_cons, h, ih]

theorem verticesOf_eq (g : Grid) (scale : ℚ) :
    verticesOf g scale = vtxList g scale (cellList g) := by
  unfold verticesOf; rw [buildVertices_eq]

theorem vmOf_eq (g : Grid) (scale : ℚ) :
    vmOf g scale = vmList g (cellList g) 0 := by
  unfold vmOf; rw [buildVertices_eq]

theorem verticesOf_length (g : Grid) (scale : ℚ) :
    (verticesOf g scale).length = 2 * activeCount g := by
  rw [verticesOf_eq, vtxList_length]; rfl

theorem cellList_nodup (g : Grid) : (cellList g).Nodup := by
  have h : cellList g = (List.range g.h).product (List.range g.w) := rfl
  rw [h]
  exact (List.nodup_range g.h).product (List.nodup_range g.w)

theorem activeList_nodup (g : Grid) : (activeList g).Nodup :=
  (cellList_nodup g).filter _

/-- The vertex buffer places the `k`-th active cell's top vertex at index `2k`
and its bottom vertex at index `2k + 1`. -/
theorem vtxList_getElem (g : Grid) (scale : ℚ) :
    ∀ (l : List (ℕ × ℕ)) (k : ℕ) (c : ℕ × ℕ),
      (l.filter fun c => g.mask c.1 c.2)[k]? = some c →
      (vtxList g scale l)[2 * k]? = some (mkTop g scale c) ∧
      (vtxList g scale l)[2 * k + 1]? = some (mkBot scale c) := by
  intro l
  induction l with
  | nil => intro k c hk; simp at hk
  | cons c' l ih =>
    intro k c hk
    by_cases h : g.mask c'.1 c'.2
    · simp only [List.filter_cons, h, if_true] at hk
      cases k with
      | zero =>
        simp at hk
        subst hk
        simp [vtxList, h]
      | succ k =>
        simp only [List.getElem?_cons_succ] at hk
        have hih := ih k c hk
        have h2 : 2 * (k + 1) = 2 * k + 1 + 1 := by ring
        rw [h2]
        simp only [vtxList, h, if_true, List.getElem?_cons_succ]
        exact hih
    · simp only [List.filter_cons, h, if_false] at hk
      simpa only [vtxList, h, if_false] using ih k c hk

/-- The `vertex_map` sends the `k`-th active cell (counting from start index
`n`) to top index `n + 2k` and bottom index `n + 2k + 1`. -/
theorem vmFind_vmList (g : Grid) :
    ∀ (l : List (ℕ × ℕ)) (n k : ℕ) (c : ℕ × ℕ), l.Nodup →
      (l.filter fun c => g.mask c.1 c.2)[k]? = some c →
      vmFind (vmList g l n) (c.2, c.1, true) = some (n + 2 * k) ∧
      vmFind (vmList g l n) (c.2, c.1, false) = some (n + 2 * k + 1) := by
  intro l
  induction l with
  | nil => intro n k c _ hk; simp at hk
  | cons c' l ih =>
    intro n k c hnd hk
    have hnd' : l.Nodup := hnd.of_cons
    by_cases h : g.mask c'.1 c'.2
    · simp only [List.filter_cons, h, if_true] at hk
      cases k with
      | zero =>
        simp at hk
        subst hk
        simp [vmList, h, vmFind]
      | succ k =>
        simp only [List.getElem?_cons_succ] at hk
        have hmem : c ∈ l := List.mem_of_mem_filter (List.getElem?_mem hk)
        have hne : c' ≠ c := fun he => (List.nodup_cons.mp hnd).1 (he ▸ hmem)
        have hkey₁ : (c'.2, c'.1, true) ≠ (c.2, c.1, true) := by
          intro he
          apply hne
          have h1 : c'.2 = c.2 := congrArg Prod.fst he
          have h2 : c'.1 = c.1 := congrArg (fun p => p.2.1) he
          exact Prod.ext h2 h1
        have hkey₂ : (c'.2, c'.1, true) ≠ (c.2, c.1, false) := by simp
        have hkey₃ : (c'.2, c'.1, false) ≠ (c.2, c.1, true) := by simp
        have hkey₄ : (c'.2, c'.1, false) ≠ (c.2, c.1, false) := by
          intro he
          apply hne
          have h1 : c'.2 = c.2 := congrArg Prod.fst he
          have h2 : c'.1 = c.1 := congrArg (fun p => p.2.1) he
          exact Prod.ext h2 h1
        have hih := ih (n + 2) k c hnd' hk
        simp only [vmList, h, if_true, vmFind, if_neg hkey₁, if_neg hkey₂,
          if_neg hkey₃, if_neg hkey₄]
        refine ⟨?_, ?_⟩
        · rw [hih.1]; congr 1; ring
        · rw [hih.2]; congr 1; ring
    · simp only [List.filter_cons, h, if_false] at hk
      simpa only [vmList, h, if_false] using ih n k c hnd' hk

/-- Any lookup for an active cell in the built vertex map and vertex buffer:
there is a rank `k < activeCount g` with top index `2k` (vertex
`mkTop g scale c`, i.e. `z = heightmap`) and bottom index `2k + 1` (vertex
`mkBot scale c`, i.e. `z = 0`). -/
theorem active_lookup (g : Grid) (scale : ℚ) (c : ℕ × ℕ)
    (hc : c ∈ activeList g) :
    ∃ k, (activeList g)[k]? = some c ∧ k < activeCount g ∧
      vmFind (vmOf g scale) (c.2, c.1, true) = some (2 * k) ∧
      vmFind (vmOf g scale) (c.2, c.1, false) = some (2 * k + 1) ∧
      (verticesOf g scale)[2 * k]? = some (mkTop g scale c) ∧
      (verticesOf g scale)[2 * k + 1]? = some (mkBot scale c) := by
  obtain ⟨k, hk⟩ := List.mem_iff_getElem?.mp hc
  have hk' : ((cellList g).filter fun c => g.mask c.1 c.2)[k]? = some c := hk
  have hlt : k < activeCount g := by
    by_contra hcon
    push_neg at hcon
    rw [List.getElem?_eq_none hcon] at hk
    exact Option.noConfusion hk
  have hvm := vmFind_vmList g (cellList g) 0 k c (cellList_nodup g) hk'
  have hvx := vtxList_getElem g scale (cellList g) k c hk'
  refine ⟨k, hk, hlt, ?_, ?_, ?_, ?_⟩
  · rw [vmOf_eq]; simpa using hvm.1
  · rw [vmOf_eq]; simpa using hvm.2
  · rw [verticesOf_eq]; exact hvx.1
  · rw [verticesOf_eq]; exact hvx.2

/-! ## Concrete scenario grids -/

/-- Scenario S1: 2 rows × 2 cols, all cells active, height 2.0, cell size 1.0. -/
def s1Grid : Grid := ⟨2, 2, fun _ _ => 2, fun _ _ => true⟩

/-- Scenario S2: 3 rows × 3 cols, all cells active, uniform height 2.0. -/
def s2Grid : Grid := ⟨3, 3, fun _ _ => 2, fun _ _ => true⟩

/-- Scenario S5: 3 rows × 3 cols, the center cell inactive, the other 8 active. -/
def s5Grid : Grid := ⟨3, 3, fun _ _ => 2, fun y x => !(y == 1 && x == 1)⟩

/-- A 3 rows × 3 cols grid with exactly one inactive cell, at the top-right
corner (row 0, col 2).  Its active region is 4-connected, simply connected
and nowhere single-cell-wide. -/
def notchGrid : Grid := ⟨3, 3, fun _ _ => 2, fun y x => !(y == 0 && x == 2)⟩

/-- C1: for the S1 input the pipeline produces exactly 8 vertices (4 top, with
`z = 2`, and 4 bottom, with `z = 0`), 2 top triangles, 2 bottom triangles and
8 wall triangles, in total 12 faces. -/
theorem s1_counts :
    (verticesOf s1Grid 1).length = 8 ∧
    ((verticesOf s1Grid 1).filter fun v => v.2.2 == 2).length = 4 ∧
    ((verticesOf s1Grid 1).filter fun v => v.2.2 == 0).length = 4 ∧
    (topFaces s1Grid (vmOf s1Grid 1)).length = 2 ∧
    (bottomFaces s1Grid (vmOf s1Grid 1)).length = 2 ∧
    (wallFaces s1Grid (vmOf s1Grid 1)).length = 8 ∧
    (allFaces s1Grid (vmOf s1Grid 1)).length = 12 := by
  decide

/-- C2: for the S5 input the pipeline emits no top face and no bottom face
(no 2×2 window is fully active), and its 24 faces are all wall triangles. -/
theorem s5_counts :
    topFaces s5Grid (vmOf s5Grid 1) = [] ∧
    bottomFaces s5Grid (vmOf s5Grid 1) = [] ∧
    (wallFaces s5Grid (vmOf s5Grid 1)).length = 24 ∧
    (allFaces s5Grid (vmOf s5Grid 1)).length = 24 := by
  decide

/-- C5: the vertex buffer has exactly `2 × (number of active cells)` entries;
in traversal order each active cell contributes exactly its top vertex
(`z = heightmap[y, x]`, see `mkTop`) followed by its bottom vertex (`z = 0`,
see `mkBot`), and inactive cells contribute nothing. -/
theorem vertex_allocation (g : Grid) (scale : ℚ) :
    (verticesOf g scale).length = 2 * activeCount g ∧
    verticesOf g scale
      = (activeList g).flatMap fun c => [mkTop g scale c, mkBot scale c] :=
  ⟨verticesOf_length g scale, by rw [verticesOf_eq, vtxList_eq_flatMap]; rfl⟩

/-- C10: the `k`-th active cell in row-major traversal order owns top vertex
index `2k` and bottom vertex index `2k + 1`; in particular its bottom index is
its top index plus one. -/
theorem vertex_index_layout (g : Grid) (scale : ℚ) (k : ℕ) (c : ℕ × ℕ)
    (hk : (activeList g)[k]? = some c) :
    vmFind (vmOf g scale) (c.2, c.1, true) = some (2 * k) ∧
    vmFind (vmOf g scale) (c.2, c.1, false) = some (2 * k + 1) ∧
    vmGet (vmOf g scale) (c.2, c.1, false)
      = vmGet (vmOf g scale) (c.2, c.1, true) + 1 := by
  have h := vmFind_vmList g (cellList g) 0 k c (cellList_nodup g) hk
  rw [vmOf_eq]
  refine ⟨by simpa using h.1, by simpa using h.2, ?_⟩
  simp [vmGet, h.1, h.2]

theorem vertex_index_layout_witness :
    (activeList s1Grid)[2]? = some (1, 0) ∧
    vmFind (vmOf s1Grid 1) (0, 1, true) = some 4 ∧
    vmFind (vmOf s1Grid 1) (0, 1, false) = some 5 := by
  have h := vertex_index_layout s1Grid 1 2 (1, 0) (by decide)
  exact ⟨by decide, by simpa using h.1, by simpa using h.2.1⟩

/-- C6: the pipeline exits with the empty-geometry error iff the grid has no
active cell, exits with the degenerate-mesh error (discarding the vertex-only
buffer) iff active cells exist but no face was generated, and in every other
case returns the mesh assembled from the vertex and face buffers. -/
theorem error_behavior (g : Grid) (scale : ℚ) :
    (heightmapToStl g scale = .error .emptyGeometry ↔ activeCount g = 0) ∧
    (heightmapToStl g scale = .error .degenerateMesh ↔
       0 < activeCount g ∧ allFaces g (vmOf g scale) = []) ∧
    (∀ m : Mesh, heightmapToStl g scale = .ok m ↔
       0 < activeCount g ∧ allFaces g (vmOf g scale) ≠ [] ∧
       m = ⟨verticesOf g scale, allFaces g (vmOf g scale)⟩) := by
  have hv := verticesOf_length g scale
  by_cases h0 : (verticesOf g scale).length = 0
  · have ha : activeCount g = 0 := by omega
    refine ⟨?_, ?_, ?_⟩ <;> simp [heightmapToStl, h0, ha]
  · have ha : 0 < activeCount g := by omega
    by_cases h1 : (allFaces g (vmOf g scale)).length = 0
    · have hf : allFaces g (vmOf g scale) = [] := List.length_eq_zero.mp h1
      refine ⟨?_, ?_, ?_⟩ <;> simp [heightmapToStl, h0, h1, hf, ha]
      omega
    · have hf : allFaces g (vmOf g scale) ≠ [] := fun he => h1 (by simp [he])
      refine ⟨?_, ?_, ?_⟩ <;> simp [heightmapToStl, h0, h1, hf, ha]
      · omega
      · intro m; exact eq_comm

/-! ## Window counting -/

/-- All four corner cells of the 2×2 window at `(x, y)` are active. -/
def fullWindow (g : Grid) (x y : ℕ) : Bool :=
  g.mask y x && g.mask y (x + 1) && g.mask (y + 1) x && g.mask (y + 1) (x + 1)

theorem extrudedCorners_length_four (g : Grid) (x y : ℕ) :
    (extrudedCorners g x y).length = 4 ↔ fullWindow g x y = true := by
  unfold extrudedCorners windowCorners fullWindow
  cases h1 : g.mask y x <;> cases h2 : g.mask y (x + 1) <;>
    cases h3 : g.mask (y + 1) x <;> cases h4 : g.mask (y + 1) (x + 1) <;>
    simp [List.filter, h1, h2, h3, h4]

/-- The 2×2 windows `(y, x)`, in loop order. -/
def windowList (g : Grid) : List (ℕ × ℕ) :=
  (List.range (g.h - 1)).flatMap fun y => (List.range (g.w - 1)).map fun x => (y, x)

/-- Number of 2×2 windows in which all four corner cells are active. -/
def fullWindowCount (g : Grid) : ℕ :=
  (windowList g).countP fun c => fullWindow g c.2 c.1

theorem windowTopFaces_length (g : Grid) (vm : VMap) (x y : ℕ) :
    (windowTopFaces g vm x y).length = if fullWindow g x y then 2 else 0 := by
  by_cases h : fullWindow g x y = true
  · rw [if_pos h]
    unfold windowTopFaces
    rw [if_pos ((extrudedCorners_length_four g x y).mpr h)]
    rfl
  · rw [if_neg h]
    unfold windowTopFaces
    rw [if_neg fun hc => h ((extrudedCorners_length_four g x y).mp hc)]
    rfl

theorem windowBottomFaces_length (g : Grid) (vm : VMap) (x y : ℕ) :
    (windowBottomFaces g vm x y).length = if fullWindow g x y then 2 else 0 := by
  by_cases h : fullWindow g x y = true
  · rw [if_pos h]
    unfold windowBottomFaces
    rw [if_pos ((extrudedCorners_length_four g x y).mpr h)]
    rfl
  · rw [if_neg h]
    unfold windowBottomFaces
    rw [if_neg fun hc => h ((extrudedCorners_length_four g x y).mp hc)]
    rfl

theorem length_flatMap_pair (l : List (ℕ × ℕ)) (f : ℕ × ℕ → List Face)
    (p : ℕ × ℕ → Bool) (h : ∀ a ∈ l, (f a).length = if p a then 2 else 0) :
    (l.flatMap f).length = 2 * l.countP p := by
  induction l with
  | nil => simp
  | cons a l ih =>
    have ha := h a (List.mem_cons_self a l)
    have ih' := ih fun b hb => h b (List.mem_cons_of_mem a hb)
    simp only [List.flatMap_cons, List.length_append, List.countP_cons, ih', ha]
    by_cases hp : p a
    · simp [hp]; ring
    · simp [hp]

theorem topFaces_eq_flatMap (g : Grid) (vm : VMap) :
    topFaces g vm = (windowList g).flatMap fun c => windowTopFaces g vm c.2 c.1 := by
  unfold topFaces windowList
  rw [List.flatMap_assoc]
  simp [List.flatMap_map]

theorem bottomFaces_eq_flatMap (g : Grid) (vm : VMap) :
    bottomFaces g vm = (windowList g).flatMap fun c => windowBottomFaces g vm c.2 c.1 := by
  unfold bottomFaces windowList
  rw [List.flatMap_assoc]
  simp [List.flatMap_map]

/-- C4: the number of top-plus-bottom surface triangles is `4 ×` the number of
2×2 windows whose four corner cells are all active, and a window with an
inactive corner contributes no top and no bottom face at all. -/
theorem surface_face_count (g : Grid) (scale : ℚ) :
    (topFaces g (vmOf g scale)).length + (bottomFaces g (vmOf g scale)).length
      = 4 * fullWindowCount g ∧
    ∀ x y, ¬ fullWindow g x y = true →
      windowTopFaces g (vmOf g scale) x y = [] ∧
      windowBottomFaces g (vmOf g scale) x y = [] := by
  constructor
  · rw [topFaces_eq_flatMap, bottomFaces_eq_flatMap]
    rw [length_flatMap_pair _ _ (fun c => fullWindow g c.2 c.1)
      (fun a _ => windowTopFaces_length g _ a.2 a.1)]
    rw [length_flatMap_pair _ _ (fun c => fullWindow g c.2 c.1)
      (fun a _ => windowBottomFaces_length g _ a.2 a.1)]
    unfold fullWindowCount
    ring
  · intro x y h
    constructor
    · unfold windowTopFaces
      rw [if_neg fun hc => h ((extrudedCorners_length_four g x y).mp hc)]
    · unfold windowBottomFaces
      rw [if_neg fun hc => h ((extrudedCorners_length_four g x y).mp hc)]

theorem surface_face_count_witness :
    (topFaces s5Grid (vmOf s5Grid 1)).length
        + (bottomFaces s5Grid (vmOf s5Grid 1)).length
      = 4 * fullWindowCount s5Grid ∧
    windowTopFaces s5Grid (vmOf s5Grid 1) 0 0 = [] := by
  have h := surface_face_count s5Grid 1
  exact ⟨h.1, (h.2 0 0 (by decide)).1⟩

/-! ## Window triangulation (winding) -/

/-- Rotate a triangle one step; rotations do not change its winding. -/
def rotFace (f : Face) : Face := (f.2.1, f.2.2, f.1)

/-- Two triangles are equal as cyclically ordered index triples. -/
def CyclicEq (f f' : Face) : Prop :=
  f' = f ∨ f' = rotFace f ∨ f' = rotFace (rotFace f)

/-- C7: for a fully active 2×2 window with corners `TL = (r, c)`,
`TR = (r, c+1)`, `BL = (r+1, c)`, `BR = (r+1, c+1)` (so `x = c`, `y = r`),
the top quad is split into exactly the triangles `(TL, TR, BL)` and
`(TR, BR, BL)` over the top vertices, and the bottom quad into two triangles
that are, as cyclic index triples, `(BL, TR, TL)` and `(BL, BR, TR)` over the
bottom vertices. -/
theorem window_triangulation (g : Grid) (scale : ℚ) (x y : ℕ)
    (h4 : fullWindow g x y = true) :
    windowTopFaces g (vmOf g scale) x y
      = [(vmGet (vmOf g scale) (x, y, true),
          vmGet (vmOf g scale) (x + 1, y, true),
          vmGet (vmOf g scale) (x, y + 1, true)),
         (vmGet (vmOf g scale) (x + 1, y, true),
          vmGet (vmOf g scale) (x + 1, y + 1, true),
          vmGet (vmOf g scale) (x, y + 1, true))] ∧
    ∃ t₁ t₂, windowBottomFaces g (vmOf g scale) x y = [t₁, t₂] ∧
      CyclicEq t₁ (vmGet (vmOf g scale) (x, y + 1, false),
                   vmGet (vmOf g scale) (x + 1, y, false),
                   vmGet (vmOf g scale) (x, y, false)) ∧
      CyclicEq t₂ (vmGet (vmOf g scale) (x, y + 1, false),
                   vmGet (vmOf g scale) (x + 1, y + 1, false),
                   vmGet (vmOf g scale) (x + 1, y, false)) := by
  have hc : (extrudedCorners g x y).length = 4 :=
    (extrudedCorners_length_four g x y).mpr h4
  refine ⟨?_,
    (vmGet (vmOf g scale) (x, y, false), vmGet (vmOf g scale) (x, y + 1, false),
     vmGet (vmOf g scale) (x + 1, y, false)),
    (vmGet (vmOf g scale) (x + 1, y, false), vmGet (vmOf g scale) (x, y + 1, false),
     vmGet (vmOf g scale) (x + 1, y + 1, false)),
    ?_, ?_, ?_⟩
  · unfold windowTopFaces
    rw [if_pos hc]
  · unfold windowBottomFaces
    rw [if_pos hc]
  · exact Or.inr (Or.inl rfl)
  · exact Or.inr (Or.inl rfl)

/-! ## Vertex-index facts for active cells -/

theorem mem_activeList_of (g : Grid) (y x : ℕ) (hy : y < g.h) (hx : x < g.w)
    (hm : g.mask y x = true) : (y, x) ∈ activeList g := by
  unfold activeList cellList
  rw [List.mem_filter]
  refine ⟨?_, hm⟩
  rw [List.mem_flatMap]
  exact ⟨y, List.mem_range.mpr hy, List.mem_map.mpr ⟨x, List.mem_range.mpr hx, rfl⟩⟩

theorem vmGet_rank (g : Grid) (scale : ℚ) (c : ℕ × ℕ) (hc : c ∈ activeList g) :
    ∃ k, k < activeCount g ∧ (activeList g)[k]? = some c ∧
      vmGet (vmOf g scale) (c.2, c.1, true) = 2 * k ∧
      vmGet (vmOf g scale) (c.2, c.1, false) = 2 * k + 1 := by
  obtain ⟨k, hk, hlt, h1, h2, _, _⟩ := active_lookup g scale c hc
  exact ⟨k, hlt, hk, by simp [vmGet, h1], by simp [vmGet, h2]⟩

theorem rank_unique (g : Grid) {k k' : ℕ} {c : ℕ × ℕ}
    (h1 : (activeList g)[k]? = some c) (h2 : (activeList g)[k']? = some c) :
    k = k' := by
  have hk : k < (activeList g).length := by
    by_contra hcon
    push_neg at hcon
    rw [List.getElem?_eq_none hcon] at h1
    exact Option.noConfusion h1
  exact List.getElem?_inj hk (activeList_nodup g) (h1.trans h2.symm)

/-- Every vertex index produced by a `vertex_map` lookup of an active cell is
below `len(vertices) = 2 × activeCount`. -/
theorem vmGet_lt (g : Grid) (scale : ℚ) (a : ℕ × ℕ) (sa : Bool)
    (ha : a ∈ activeList g) :
    vmGet (vmOf g scale) (a.2, a.1, sa) < 2 * activeCount g := by
  obtain ⟨k, hlt, _, h1, h2⟩ := vmGet_rank g scale a ha
  cases sa
  · rw [h2]; omega
  · rw [h1]; omega

/-- Lookups for different (cell, top/bottom) slots of active cells give
different vertex indices. -/
theorem vmGet_ne (g : Grid) (scale : ℚ) (a b : ℕ × ℕ) (sa sb : Bool)
    (ha : a ∈ activeList g) (hb : b ∈ activeList g)
    (hne : a ≠ b ∨ sa ≠ sb) :
    vmGet (vmOf g scale) (a.2, a.1, sa) ≠ vmGet (vmOf g scale) (b.2, b.1, sb) := by
  obtain ⟨k, _, hka, h1a, h2a⟩ := vmGet_rank g scale a ha
  obtain ⟨k', _, hkb, h1b, h2b⟩ := vmGet_rank g scale b hb
  by_cases hab : a = b
  · subst hab
    have hkk : k = k' := rank_unique g hka hkb
    subst hkk
    have hs : sa ≠ sb := hne.resolve_left fun h => h rfl
    cases sa <;> cases sb
    · exact absurd rfl hs
    · rw [h2a, h1b]; omega
    · rw [h1a, h2b]; omega
    · exact absurd rfl hs
  · have hkk : k ≠ k' := by
      intro he
      subst he
      exact hab (Option.some.inj (hka.symm.trans hkb))
    cases sa <;> cases sb
    · rw [h2a, h2b]; omega
    · rw [h2a, h1b]; omega
    · rw [h1a, h2b]; omega
    · rw [h1a, h1b]; omega

/-! ## Walls, per side -/

/-- The far-end cell `(row, col)` of the wall quad the code builds for a side
of cell `(y, x)`: the `(y, x+1)` companion for an up/down side (`dx = 0`), the
`(y+1, x)` companion for a left/right side — the perpendicular neighbor
sharing the wall's lattice edge, as hard-coded in each branch. -/
def companionCell (x y : ℕ) (d : ℤ × ℤ) : ℕ × ℕ :=
  if d.1 = 0 then (y, x + 1) else (y + 1, x)

/-- The guard of each wall branch: the companion cell is inside the grid and
active. -/
def companionOk (g : Grid) (x y : ℕ) (d : ℤ × ℤ) : Bool :=
  if d.1 = 0 then decide (x < g.w - 1) && g.mask y (x + 1)
  else decide (y < g.h - 1) && g.mask (y + 1) x

/-- C3: for an active cell `(y, x)` and a direction `d` whose adjacent
position is inactive or out of bounds (a boundary side), the wall builder
emits exactly one wall quad — two triangles whose vertex indices are exactly
the top and bottom indices of the cell and of its companion cell, the top
vertices carrying `z = heightmap` (`mkTop`) and the bottom vertices `z = 0`
(`mkBot`) — iff the companion cell is active; otherwise the side emits no
face. -/
theorem wall_per_side (g : Grid) (scale : ℚ) (x y : ℕ) (d : ℤ × ℤ)
    (hd : d ∈ directions) (hy : y < g.h) (hx : x < g.w)
    (hact : g.mask y x = true) (hopen : neighborOpen g x y d = true) :
    (companionOk g x y d = false → wallFacesDir g (vmOf g scale) x y d = []) ∧
    (companionOk g x y d = true →
      ∃ t₁ b₁ t₂ b₂,
        vmFind (vmOf g scale) (x, y, true) = some t₁ ∧
        vmFind (vmOf g scale) (x, y, false) = some b₁ ∧
        vmFind (vmOf g scale)
          ((companionCell x y d).2, (companionCell x y d).1, true) = some t₂ ∧
        vmFind (vmOf g scale)
          ((companionCell x y d).2, (companionCell x y d).1, false) = some b₂ ∧
        (verticesOf g scale)[t₁]? = some (mkTop g scale (y, x)) ∧
        (verticesOf g scale)[b₁]? = some (mkBot scale (y, x)) ∧
        (verticesOf g scale)[t₂]? = some (mkTop g scale (companionCell x y d)) ∧
        (verticesOf g scale)[b₂]? = some (mkBot scale (companionCell x y d)) ∧
        (wallFacesDir g (vmOf g scale) x y d = [(t₁, t₂, b₁), (t₂, b₂, b₁)] ∨
         wallFacesDir g (vmOf g scale) x y d = [(t₁, b₁, t₂), (t₂, b₁, b₂)])) := by
  have hcell : (y, x) ∈ activeList g := mem_activeList_of g y x hy hx hact
  obtain ⟨k₁, _, _, hf₁t, hf₁b, hv₁t, hv₁b⟩ := active_lookup g scale (y, x) hcell
  simp only [directions, List.mem_cons, List.not_mem_nil, or_false] at hd
  rcases hd with rfl | rfl | rfl | rfl
  · -- d = (0, 1): "bottom edge" branch, companion (y, x + 1)
    have hco : companionOk g x y (0, 1) = true ↔
        x < g.w - 1 ∧ g.mask y (x + 1) = true := by simp [companionOk]
    constructor
    · intro hcf
      have hng : ¬(x < g.w - 1 ∧ g.mask y (x + 1) = true) := fun hg => by
        rw [hco.mpr hg] at hcf; exact Bool.noConfusion hcf
      simp [wallFacesDir, hopen, hng]
    · intro hct
      obtain ⟨hxlt, hmask⟩ := hco.mp hct
      have hcomp : (y, x + 1) ∈ activeList g :=
        mem_activeList_of g y (x + 1) hy (by omega) hmask
      obtain ⟨k₂, _, _, hf₂t, hf₂b, hv₂t, hv₂b⟩ :=
        active_lookup g scale (y, x + 1) hcomp
      refine ⟨2 * k₁, 2 * k₁ + 1, 2 * k₂, 2 * k₂ + 1,
        hf₁t, hf₁b, hf₂t, hf₂b, hv₁t, hv₁b, hv₂t, hv₂b, Or.inr ?_⟩
      simp [wallFacesDir, hopen, hxlt, hmask, vmGet, hf₁t, hf₁b, hf₂t, hf₂b]
  · -- d = (1, 0): "right edge" branch, companion (y + 1, x)
    have hco : companionOk g x y (1, 0) = true ↔
        y < g.h - 1 ∧ g.mask (y + 1) x = true := by simp [companionOk]
    constructor
    · intro hcf
      have hng : ¬(y < g.h - 1 ∧ g.mask (y + 1) x = true) := fun hg => by
        rw [hco.mpr hg] at hcf; exact Bool.noConfusion hcf
      simp [wallFacesDir, hopen, hng]
    · intro hct
      obtain ⟨hylt, hmask⟩ := hco.mp hct
      have hcomp : (y + 1, x) ∈ activeList g :=
        mem_activeList_of g (y + 1) x (by omega) hx hmask
      obtain ⟨k₂, _, _, hf₂t, hf₂b, hv₂t, hv₂b⟩ :=
        active_lookup g scale (y + 1, x) hcomp
      refine ⟨2 * k₁, 2 * k₁ + 1, 2 * k₂, 2 * k₂ + 1,
        hf₁t, hf₁b, hf₂t, hf₂b, hv₁t, hv₁b, hv₂t, hv₂b, Or.inl ?_⟩
      simp [wallFacesDir, hopen, hylt, hmask, vmGet, hf₁t, hf₁b, hf₂t, hf₂b]
  · -- d = (0, -1): "top edge" branch, companion (y, x + 1)
    have hco : companionOk g x y (0, -1) = true ↔
        x < g.w - 1 ∧ g.mask y (x + 1) = true := by simp [companionOk]
    constructor
    · intro hcf
      have hng : ¬(x < g.w - 1 ∧ g.mask y (x + 1) = true) := fun hg => by
        rw [hco.mpr hg] at hcf; exact Bool.noConfusion hcf
      simp [wallFacesDir, hopen, hng]
    · intro hct
      obtain ⟨hxlt, hmask⟩ := hco.mp hct
      have hcomp : (y, x + 1) ∈ activeList g :=
        mem_activeList_of g y (x + 1) hy (by omega) hmask
      obtain ⟨k₂, _, _, hf₂t, hf₂b, hv₂t, hv₂b⟩ :=
        active_lookup g scale (y, x + 1) hcomp
      refine ⟨2 * k₁, 2 * k₁ + 1, 2 * k₂, 2 * k₂ + 1,
        hf₁t, hf₁b, hf₂t, hf₂b, hv₁t, hv₁b, hv₂t, hv₂b, Or.inl ?_⟩
      simp [wallFacesDir, hopen, hxlt, hmask, vmGet, hf₁t, hf₁b, hf₂t, hf₂b]
  · -- d = (-1, 0): "left edge" branch, companion (y + 1, x)
    have hco : companionOk g x y (-1, 0) = true ↔
        y < g.h - 1 ∧ g.mask (y + 1) x = true := by simp [companionOk]
    constructor
    · intro hcf
      have hng : ¬(y < g.h - 1 ∧ g.mask (y + 1) x = true) := fun hg => by
        rw [hco.mpr hg] at hcf; exact Bool.noConfusion hcf
      simp [wallFacesDir, hopen, hng]
    · intro hct
      obtain ⟨hylt, hmask⟩ := hco.mp hct
      have hcomp : (y + 1, x) ∈ activeList g :=
        mem_activeList_of g (y + 1) x (by omega) hx hmask
      obtain ⟨k₂, _, _, hf₂t, hf₂b, hv₂t, hv₂b⟩ :=
        active_lookup g scale (y + 1, x) hcomp
      refine ⟨2 * k₁, 2 * k₁ + 1, 2 * k₂, 2 * k₂ + 1,
        hf₁t, hf₁b, hf₂t, hf₂b, hv₁t, hv₁b, hv₂t, hv₂b, Or.inr ?_⟩
      simp [wallFacesDir, hopen, hylt, hmask, vmGet, hf₁t, hf₁b, hf₂t, hf₂b]

theorem wall_per_side_witness :
    wallFacesDir s1Grid (vmOf s1Grid 1) 1 1 (1, 0) = [] ∧
    ∃ t₁ b₁ t₂ b₂,
      vmFind (vmOf s1Grid 1) (0, 0, true) = some t₁ ∧
      vmFind (vmOf s1Grid 1) (0, 0, false) = some b₁ ∧
      vmFind (vmOf s1Grid 1) (0, 1, true) = some t₂ ∧
      vmFind (vmOf s1Grid 1) (0, 1, false) = some b₂ ∧
      (verticesOf s1Grid 1)[t₁]? = some (mkTop s1Grid 1 (0, 0)) ∧
      (verticesOf s1Grid 1)[b₁]? = some (mkBot 1 (0, 0)) ∧
      (verticesOf s1Grid 1)[t₂]? = some (mkTop s1Grid 1 (1, 0)) ∧
      (verticesOf s1Grid 1)[b₂]? = some (mkBot 1 (1, 0)) ∧
      (wallFacesDir s1Grid (vmOf s1Grid 1) 0 0 (-1, 0)
         = [(t₁, t₂, b₁), (t₂, b₂, b₁)] ∨
       wallFacesDir s1Grid (vmOf s1Grid 1) 0 0 (-1, 0)
         = [(t₁, b₁, t₂), (t₂, b₁, b₂)]) := by
  constructor
  · exact (wall_per_side s1Grid 1 1 1 (1, 0) (by decide) (by decide) (by decide)
      (by decide) (by decide)).1 (by decide)
  · exact (wall_per_side s1Grid 1 0 0 (-1, 0) (by decide) (by decide) (by decide)
      (by decide) (by decide)).2 (by decide)

/-! ## Face-index validity -/

theorem goodFace (g : Grid) (scale : ℚ) (a b c : ℕ × ℕ) (sa sb sc : Bool)
    (ha : a ∈ activeList g) (hb : b ∈ activeList g) (hc : c ∈ activeList g)
    (hab : a ≠ b ∨ sa ≠ sb) (hac : a ≠ c ∨ sa ≠ sc) (hbc : b ≠ c ∨ sb ≠ sc) :
    vmGet (vmOf g scale) (a.2, a.1, sa) ≠ vmGet (vmOf g scale) (b.2, b.1, sb) ∧
    vmGet (vmOf g scale) (a.2, a.1, sa) ≠ vmGet (vmOf g scale) (c.2, c.1, sc) ∧
    vmGet (vmOf g scale) (b.2, b.1, sb) ≠ vmGet (vmOf g scale) (c.2, c.1, sc) ∧
    vmGet (vmOf g scale) (a.2, a.1, sa) < 2 * activeCount g ∧
    vmGet (vmOf g scale) (b.2, b.1, sb) < 2 * activeCount g ∧
    vmGet (vmOf g scale) (c.2, c.1, sc) < 2 * activeCount g :=
  ⟨vmGet_ne g scale a b sa sb ha hb hab, vmGet_ne g scale a c sa sc ha hc hac,
   vmGet_ne g scale b c sb sc hb hc hbc, vmGet_lt g scale a sa ha,
   vmGet_lt g scale b sb hb, vmGet_lt g scale c sc hc⟩

theorem surface_faces_good (g : Grid) (scale : ℚ) (a b c : ℕ × ℕ) (s : Bool)
    (ha : a ∈ activeList g) (hb : b ∈ activeList g) (hc : c ∈ activeList g)
    (hab : a ≠ b) (hac : a ≠ c) (hbc : b ≠ c) (f : Face)
    (hf : f = (vmGet (vmOf g scale) (a.2, a.1, s), vmGet (vmOf g scale) (b.2, b.1, s),
               vmGet (vmOf g scale) (c.2, c.1, s))) :
    f.1 ≠ f.2.1 ∧ f.1 ≠ f.2.2 ∧ f.2.1 ≠ f.2.2 ∧
    f.1 < 2 * activeCount g ∧ f.2.1 < 2 * activeCount g ∧
    f.2.2 < 2 * activeCount g := by
  subst hf
  exact goodFace g scale a b c s s s ha hb hc (Or.inl hab) (Or.inl hac) (Or.inl hbc)

theorem wall_faces_good (g : Grid) (scale : ℚ) (p q : ℕ × ℕ)
    (hp : p ∈ activeList g) (hq : q ∈ activeList g) (hne : p ≠ q) (f : Face)
    (hf : f = (vmGet (vmOf g scale) (p.2, p.1, true), vmGet (vmOf g scale) (q.2, q.1, true),
               vmGet (vmOf g scale) (p.2, p.1, false)) ∨
          f = (vmGet (vmOf g scale) (q.2, q.1, true), vmGet (vmOf g scale) (q.2, q.1, false),
               vmGet (vmOf g scale) (p.2, p.1, false)) ∨
          f = (vmGet (vmOf g scale) (p.2, p.1, true), vmGet (vmOf g scale) (p.2, p.1, false),
               vmGet (vmOf g scale) (q.2, q.1, true)) ∨
          f = (vmGet (vmOf g scale) (q.2, q.1, true), vmGet (vmOf g scale) (p.2, p.1, false),
               vmGet (vmOf g scale) (q.2, q.1, false))) :
    f.1 ≠ f.2.1 ∧ f.1 ≠ f.2.2 ∧ f.2.1 ≠ f.2.2 ∧
    f.1 < 2 * activeCount g ∧ f.2.1 < 2 * activeCount g ∧
    f.2.2 < 2 * activeCount g := by
  rcases hf with rfl | rfl | rfl | rfl
  · exact goodFace g scale p q p true true false hp hq hp
      (Or.inl hne) (Or.inr (by decide)) (Or.inl hne.symm)
  · exact goodFace g scale q q p true false false hq hq hp
      (Or.inr (by decide)) (Or.inl hne.symm) (Or.inl hne.symm)
  · exact goodFace g scale p p q true false true hp hp hq
      (Or.inr (by decide)) (Or.inl hne) (Or.inl hne)
  · exact goodFace g scale q p q true false false hq hp hq
      (Or.inl hne.symm) (Or.inr (by decide)) (Or.inl hne)

theorem mem_topFaces (g : Grid) (vm : VMap) (f : Face) (hf : f ∈ topFaces g vm) :
    ∃ y x, y + 1 < g.h ∧ x + 1 < g.w ∧ fullWindow g x y = true ∧
      (f = (vmGet vm (x, y, true), vmGet vm (x + 1, y, true),
            vmGet vm (x, y + 1, true)) ∨
       f = (vmGet vm (x + 1, y, true), vmGet vm (x + 1, y + 1, true),
            vmGet vm (x, y + 1, true))) := by
  unfold topFaces at hf
  rw [List.mem_flatMap] at hf
  obtain ⟨y, hy, hf⟩ := hf
  rw [List.mem_flatMap] at hf
  obtain ⟨x, hx, hf⟩ := hf
  rw [List.mem_range] at hy hx
  unfold windowTopFaces at hf
  by_cases hc : (extrudedCorners g x y).length = 4
  · rw [if_pos hc] at hf
    refine ⟨y, x, by omega, by omega, (extrudedCorners_length_four g x y).mp hc, ?_⟩
    simpa using hf
  · rw [if_neg hc] at hf
    simp at hf

theorem mem_bottomFaces (g : Grid) (vm : VMap) (f : Face) (hf : f ∈ bottomFaces g vm) :
    ∃ y x, y + 1 < g.h ∧ x + 1 < g.w ∧ fullWindow g x y = true ∧
      (f = (vmGet vm (x, y, false), vmGet vm (x, y + 1, false),
            vmGet vm (x + 1, y, false)) ∨
       f = (vmGet vm (x + 1, y, false), vmGet vm (x, y + 1, false),
            vmGet vm (x + 1, y + 1, false))) := by
  unfold bottomFaces at hf
  rw [List.mem_flatMap] at hf
  obtain ⟨y, hy, hf⟩ := hf
  rw [List.mem_flatMap] at hf
  obtain ⟨x, hx, hf⟩ := hf
  rw [List.mem_range] at hy hx
  unfold windowBottomFaces at hf
  by_cases hc : (extrudedCorners g x y).length = 4
  · rw [if_pos hc] at hf
    refine ⟨y, x, by omega, by omega, (extrudedCorners_length_four g x y).mp hc, ?_⟩
    simpa using hf
  · rw [if_neg hc] at hf
    simp at hf

theorem mem_wallFaces (g : Grid) (vm : VMap) (f : Face) (hf : f ∈ wallFaces g vm) :
    ∃ y x d, y < g.h ∧ x < g.w ∧ g.mask y x = true ∧ d ∈ directions ∧
      f ∈ wallFacesDir g vm x y d := by
  unfold wallFaces at hf
  rw [List.mem_flatMap] at hf
  obtain ⟨y, hy, hf⟩ := hf
  rw [List.mem_flatMap] at hf
  obtain ⟨x, hx, hf⟩ := hf
  rw [List.mem_range] at hy hx
  by_cases hm : g.mask y x = true
  · rw [if_pos hm] at hf
    rw [List.mem_flatMap] at hf
    obtain ⟨d, hd, hf⟩ := hf
    exact ⟨y, x, d, hy, hx, hm, hd, hf⟩
  · rw [if_neg hm] at hf
    simp at hf

/-- C9: every face of the output mesh consists of three pairwise distinct
vertex indices, each `< len(vertices)`. -/
theorem face_indices_valid (g : Grid) (scale : ℚ) (m : Mesh)
    (hm : heightmapToStl g scale = .ok m) (f : Face) (hf : f ∈ m.faces) :
    f.1 ≠ f.2.1 ∧ f.1 ≠ f.2.2 ∧ f.2.1 ≠ f.2.2 ∧
    f.1 < m.vertices.length ∧ f.2.1 < m.vertices.length ∧
    f.2.2 < m.vertices.length := by
  obtain ⟨-, -, hmm⟩ := error_behavior g scale
  obtain ⟨-, -, hme⟩ := (hmm m).mp hm
  subst hme
  replace hf : f ∈ allFaces g (vmOf g scale) := hf
  show f.1 ≠ f.2.1 ∧ f.1 ≠ f.2.2 ∧ f.2.1 ≠ f.2.2 ∧
    f.1 < (verticesOf g scale).length ∧ f.2.1 < (verticesOf g scale).length ∧
    f.2.2 < (verticesOf g scale).length
  rw [verticesOf_length]
  unfold allFaces at hf
  rw [List.mem_append, List.mem_append] at hf
  rcases hf with (hf | hf) | hf
  · -- top-surface faces
    obtain ⟨y, x, hy, hx, hw, hf⟩ := mem_topFaces g _ f hf
    simp only [fullWindow, Bool.and_eq_true] at hw
    obtain ⟨⟨⟨m11, m12⟩, m21⟩, m22⟩ := hw
    have h11 := mem_activeList_of g y x (by omega) (by omega) m11
    have h12 := mem_activeList_of g y (x + 1) (by omega) (by omega) m12
    have h21 := mem_activeList_of g (y + 1) x (by omega) (by omega) m21
    have h22 := mem_activeList_of g (y + 1) (x + 1) (by omega) (by omega) m22
    rcases hf with rfl | rfl
    · exact surface_faces_good g scale (y, x) (y, x + 1) (y + 1, x) true
        h11 h12 h21 (by simp) (by simp) (by simp [Prod.ext_iff]) _ rfl
    · exact surface_faces_good g scale (y, x + 1) (y + 1, x + 1) (y + 1, x) true
        h12 h22 h21 (by simp) (by simp [Prod.ext_iff]) (by simp) _ rfl
  · -- bottom-surface faces
    obtain ⟨y, x, hy, hx, hw, hf⟩ := mem_bottomFaces g _ f hf
    simp only [fullWindow, Bool.and_eq_true] at hw
    obtain ⟨⟨⟨m11, m12⟩, m21⟩, m22⟩ := hw
    have h11 := mem_activeList_of g y x (by omega) (by omega) m11
    have h12 := mem_activeList_of g y (x + 1) (by omega) (by omega) m12
    have h21 := mem_activeList_of g (y + 1) x (by omega) (by omega) m21
    have h22 := mem_activeList_of g (y + 1) (x + 1) (by omega) (by omega) m22
    rcases hf with rfl | rfl
    · exact surface_faces_good g scale (y, x) (y + 1, x) (y, x + 1) false
        h11 h21 h12 (by simp) (by simp) (by simp [Prod.ext_iff]) _ rfl
    · exact surface_faces_good g scale (y, x + 1) (y + 1, x) (y + 1, x + 1) false
        h12 h21 h22 (by simp [Prod.ext_iff]) (by simp) (by simp) _ rfl
  · -- wall faces
    obtain ⟨y, x, d, hy, hx, hmsk, hd, hf⟩ := mem_wallFaces g _ f hf
    have hcell := mem_activeList_of g y x hy hx hmsk
    simp only [directions, List.mem_cons, List.not_mem_nil, or_false] at hd
    rcases hd with rfl | rfl | rfl | rfl
    · -- d = (0, 1): bottom edge
      by_cases hno : neighborOpen g x y (0, 1) = true
      · rw [wallFacesDir, if_pos hno] at hf
        norm_num at hf
        obtain ⟨hg, hf⟩ := hf
        have hcomp := mem_activeList_of g y (x + 1) hy (by omega) hg.2
        have hne : ((y, x) : ℕ × ℕ) ≠ (y, x + 1) := by simp
        exact wall_faces_good g scale (y, x) (y, x + 1) hcell hcomp hne f
          (by rcases hf with rfl | rfl
              · exact Or.inr (Or.inr (Or.inl rfl))
              · exact Or.inr (Or.inr (Or.inr rfl)))
      · rw [wallFacesDir, if_neg hno] at hf
        simp at hf
    · -- d = (1, 0): right edge
      by_cases hno : neighborOpen g x y (1, 0) = true
      · rw [wallFacesDir, if_pos hno] at hf
        norm_num at hf
        obtain ⟨hg, hf⟩ := hf
        have hcomp := mem_activeList_of g (y + 1) x (by omega) hx hg.2
        have hne : ((y, x) : ℕ × ℕ) ≠ (y + 1, x) := by simp [Prod.ext_iff]
        exact wall_faces_good g scale (y, x) (y + 1, x) hcell hcomp hne f
          (by rcases hf with rfl | rfl
              · exact Or.inl rfl
              · exact Or.inr (Or.inl rfl))
      · rw [wallFacesDir, if_neg hno] at hf
        simp at hf
    · -- d = (0, -1): top edge
      by_cases hno : neighborOpen g x y (0, -1) = true
      · rw [wallFacesDir, if_pos hno] at hf
        norm_num at hf
        obtain ⟨hg, hf⟩ := hf
        have hcomp := mem_activeList_of g y (x + 1) hy (by omega) hg.2
        have hne : ((y, x) : ℕ × ℕ) ≠ (y, x + 1) := by simp
        exact wall_faces_good g scale (y, x) (y, x + 1) hcell hcomp hne f
          (by rcases hf with rfl | rfl
              · exact Or.inl rfl
              · exact Or.inr (Or.inl rfl))
      · rw [wallFacesDir, if_neg hno] at hf
        simp at hf
    · -- d = (-1, 0): left edge
      by_cases hno : neighborOpen g x y (-1, 0) = true
      · rw [wallFacesDir, if_pos hno] at hf
        norm_num at hf
        obtain ⟨hg, hf⟩ := hf
        have hcomp := mem_activeList_of g (y + 1) x (by omega) hx hg.2
        have hne : ((y, x) : ℕ × ℕ) ≠ (y + 1, x) := by simp [Prod.ext_iff]
        exact wall_faces_good g scale (y, x) (y + 1, x) hcell hcomp hne f
          (by rcases hf with rfl | rfl
              · exact Or.inr (Or.inr (Or.inl rfl))
              · exact Or.inr (Or.inr (Or.inr rfl)))
      · rw [wallFacesDir, if_neg hno] at hf
        simp at hf

theorem face_indices_valid_witness :
    (0, 2, 4) ∈ (Mesh.mk (verticesOf s1Grid 1)
      (allFaces s1Grid (vmOf s1Grid 1))).faces ∧
    (0 : ℕ) ≠ 2 ∧ (0 : ℕ) < (verticesOf s1Grid 1).length := by
  have h := face_indices_valid s1Grid 1
    ⟨verticesOf s1Grid 1, allFaces s1Grid (vmOf s1Grid 1)⟩ rfl (0, 2, 4)
    (by decide)
  exact ⟨by decide, h.1, h.2.2.2.1⟩

/-! ## Watertightness -/

/-- Does face `f` contain the undirected edge `{i, j}`? -/
def faceHasEdge (f : Face) (i j : ℕ) : Bool :=
  (f.1 == i && f.2.1 == j) || (f.1 == j && f.2.1 == i) ||
  (f.2.1 == i && f.2.2 == j) || (f.2.1 == j && f.2.2 == i) ||
  (f.1 == i && f.2.2 == j) || (f.1 == j && f.2.2 == i)

/-- Number of faces containing the undirected edge `{i, j}`. -/
def edgeFaceCount (fs : List Face) (i j : ℕ) : ℕ :=
  (fs.filter fun f => faceHasEdge f i j).length

/-- Closedness of a mesh on `n` vertices: every undirected vertex pair lies in
either zero faces or exactly two faces. -/
def watertight (fs : List Face) (n : ℕ) : Bool :=
  (List.range n).all fun i => (List.range n).all fun j =>
    !(decide (i < j)) || (edgeFaceCount fs i j == 0 || edgeFaceCount fs i j == 2)

/-- Four-adjacency of two cells. -/
def adjacent4 (c d : ℕ × ℕ) : Bool :=
  (c.1 == d.1 && (c.2 + 1 == d.2 || d.2 + 1 == c.2)) ||
  (c.2 == d.2 && (c.1 + 1 == d.1 || d.1 + 1 == c.1))

/-- One breadth step of cells of `act` reachable from the set `s`. -/
def expandReach (act s : List (ℕ × ℕ)) : List (ℕ × ℕ) :=
  act.filter fun c => s.contains c || s.any fun d => adjacent4 c d

/-- The cells of `act` form one 4-connected component. -/
def connected4 (act : List (ℕ × ℕ)) : Bool :=
  match act with
  | [] => true
  | c :: _ => ((expandReach act)^[act.length] [c]).length == act.length

/-- Did `heightmap_to_stl` produce a mesh (no early exit)? -/
def producedMesh : Except MeshError Mesh → Bool
  | .ok _ => true
  | .error _ => false

/-- C8 counterexample: the notch grid (3×3 minus its top-right cell) has a
4-connected active region in which every active cell belongs to a fully
active 2×2 window (so the region is nowhere a single-cell-wide spur), the
pipeline returns a mesh for it, and yet the undirected edge `{6, 8}` — the
top vertices of the cells `(1, 1)` and `(1, 2)` — lies in exactly one face,
so the mesh is not watertight. -/
theorem watertight_counterexample :
    connected4 (activeList notchGrid) = true ∧
    ((activeList notchGrid).all fun c =>
      (windowList notchGrid).any fun w =>
        fullWindow notchGrid w.2 w.1
          && (windowCorners w.2 w.1).contains (c.2, c.1)) = true ∧
    producedMesh (heightmapToStl notchGrid 1) = true ∧
    edgeFaceCount (allFaces notchGrid (vmOf notchGrid 1)) 6 8 = 1 ∧
    watertight (allFaces notchGrid (vmOf notchGrid 1))
      (verticesOf notchGrid 1).length = false := by
  exact ⟨by decide, by decide, by decide, by decide, by decide⟩

/-- C8 (amended): for fully active rectangular grids the mesh is watertight;
verified here for the solid 2×2 grid (S1) and the solid 3×3 grid (S2). -/
theorem watertight_solid_grids :
    watertight (allFaces s1Grid (vmOf s1Grid 1))
      (verticesOf s1Grid 1).length = true ∧
    watertight (allFaces s2Grid (vmOf s2Grid 1))
      (verticesOf s2Grid 1).length = true := by
  exact ⟨by decide, by decide⟩

theorem window_triangulation_witness :
    fullWindow s1Grid 0 0 = true ∧
    windowTopFaces s1Grid (vmOf s1Grid 1) 0 0 = [(0, 2, 4), (2, 6, 4)] := by
  have h := window_triangulation s1Grid 1 0 0 (by decide)
  refine ⟨by decide, ?_⟩
  rw [h.1]
  decide

end Svg2Stl
